import Mathlib

/-!
Verification of the Kirigami PageRouter (src/pagerouter.h).

The development embeds, in Lean, the data model and operations of the
router.  The ParsedRoute value type, its equality operators and its
identity-table hash are implemented fully inside the reviewed header and
are translated from that source.  The bodies of the PageRouter methods
(navigateToRoute, pushRoute, popRoute, routeActive, currentRoutes, the
route-table lookup helpers) live in a translation unit that is not part of
the reviewed tree, so those operations are modelled from the specification
document, as noted on each of their definitions.

The payload type of route data (QVariant in the source: an opaque value
compared by value equality) is modelled as an arbitrary type V with
decidable equality; an invalid QVariant is modelled by wrapping payloads in
Option, with none standing for the invalid value.  Page items (QQuickItem
pointers) are modelled by instance identifiers of type Nat: two stack
entries hold the same page object exactly when they hold the same
identifier.
-/

set_option maxHeartbeats 1600000
set_option linter.unusedSectionVars false
set_option linter.unusedVariables false

variable {V : Type} [DecidableEq V]

/-- The ParsedRoute struct of pagerouter.h: a resolved stack entry carrying
the route name, the data payload, the cache flag, and the QPointer to the
page item (modelled as an optional instance identifier, none standing for a
null pointer). -/
structure ParsedRoute (V : Type) where
  name : String
  data : Option V
  cache : Bool
  item : Option Nat
deriving DecidableEq

/-- ParsedRoute::operator== from pagerouter.h: componentwise comparison of
name, data, item and cache, joined with logical and. -/
def ParsedRoute.eqOp (a b : ParsedRoute V) : Bool :=
  decide (a.name = b.name) && decide (a.data = b.data) &&
    decide (a.item = b.item) && decide (a.cache = b.cache)

/-- ParsedRoute::operator!= from pagerouter.h, exactly as written in the
source: the componentwise disequalities of name, data, item and cache
joined with logical and (not or). -/
def ParsedRoute.neOp (a b : ParsedRoute V) : Bool :=
  decide (¬ a.name = b.name) && decide (¬ a.data = b.data) &&
    decide (¬ a.item = b.item) && decide (¬ a.cache = b.cache)

/-- The scan loop of ParsedRoute::hash over s_knownVariants: return the key
of the first entry, in iteration order, whose stored payload equals the
given data by value. -/
def findKnownVariant (d : Option V) : List (Nat × Option V) → Option Nat
  | [] => none
  | (k, v) :: rest => if v = d then some k else findKnownVariant d rest

/-- Insertion into s_knownVariants.  The source table is a std::map keyed
by quint32, so it iterates in ascending key order; the model keeps the
table as a list sorted by key and inserts at the sorted position
(replacing an equal key, which the hash function never actually hits
because the inserted key is checked fresh). -/
def insertKnownVariant (k : Nat) (d : Option V) : List (Nat × Option V) → List (Nat × Option V)
  | [] => [(k, d)]
  | (k0, v0) :: rest =>
    if k < k0 then (k, d) :: (k0, v0) :: rest
    else if k = k0 then (k, d) :: rest
    else (k0, v0) :: insertKnownVariant k d rest

/-- ParsedRoute::hash from pagerouter.h.  The table argument is the state
of the process-wide s_knownVariants map, in iteration order.  The random
generator is modelled as a stream gen of candidate keys together with the
hypothesis that some candidate is not already a key of the table (the
source loops until that happens, which with a random source terminates
with probability one); the loop takes the first fresh candidate.  The
result is the identity together with the new table state. -/
def ParsedRoute.hash (r : ParsedRoute V) (table : List (Nat × Option V)) (gen : Nat → Nat)
    (h : ∃ n, gen n ∉ table.map Prod.fst) : Nat × List (Nat × Option V) :=
  match findKnownVariant r.data table with
  | some k => (k, table)
  | none => (gen (Nat.find h), insertKnownVariant (gen (Nat.find h)) r.data table)

theorem findKnownVariant_eq_none {d : Option V} {l : List (Nat × Option V)}
    (h : findKnownVariant d l = none) : ∀ p ∈ l, p.2 ≠ d := by
  induction l with
  | nil => intro p hp; cases hp
  | cons hd tl ih =>
    intro p hp
    obtain ⟨k0, v0⟩ := hd
    by_cases hv : v0 = d
    · simp [findKnownVariant, hv] at h
    · simp only [findKnownVariant, if_neg hv] at h
      rcases List.mem_cons.mp hp with hp | hp
      · subst hp; exact hv
      · exact ih h p hp

theorem mem_insertKnownVariant {k : Nat} {d : Option V} {l : List (Nat × Option V)}
    (hk : k ∉ l.map Prod.fst) : ∀ e ∈ l, e ∈ insertKnownVariant k d l := by
  induction l with
  | nil => intro e he; cases he
  | cons hd tl ih =>
    intro e he
    obtain ⟨k0, v0⟩ := hd
    simp only [List.map_cons, List.mem_cons] at hk
    push_neg at hk
    obtain ⟨hkk0, hktl⟩ := hk
    rcases List.mem_cons.mp he with he | he
    · subst he
      by_cases hlt : k < k0
      · simp [insertKnownVariant, if_pos hlt]
      · simp [insertKnownVariant, if_neg hlt, if_neg hkk0]
    · by_cases hlt : k < k0
      · simp only [insertKnownVariant, if_pos hlt]
        exact List.mem_cons_of_mem _ (List.mem_cons_of_mem _ he)
      · simp only [insertKnownVariant, if_neg hlt, if_neg hkk0]
        exact List.mem_cons_of_mem _ (ih hktl e he)

theorem findKnownVariant_insertKnownVariant_self {d : Option V} {k : Nat}
    {l : List (Nat × Option V)} (h : findKnownVariant d l = none) :
    findKnownVariant d (insertKnownVariant k d l) = some k := by
  induction l with
  | nil => simp [insertKnownVariant, findKnownVariant]
  | cons hd tl ih =>
    obtain ⟨k0, v0⟩ := hd
    by_cases hv : v0 = d
    · simp [findKnownVariant, hv] at h
    · simp only [findKnownVariant, if_neg hv] at h
      by_cases hlt : k < k0
      · simp [insertKnownVariant, if_pos hlt, findKnownVariant]
      · by_cases heq : k = k0
        · simp [insertKnownVariant, if_neg hlt, if_pos heq, findKnownVariant]
        · simp [insertKnownVariant, if_neg hlt, if_neg heq, findKnownVariant, if_neg hv, ih h]

/-- C6: the identity derived by ParsedRoute::hash from a data payload
reuses the first matching existing identity of the process-wide table when
an entry holds an equal-by-value payload (leaving the table unchanged); a
payload not yet in the table is assigned a fresh identity distinct from
every identity already in the table; the table only ever grows; and
equal-by-value payloads always derive equal identities (in particular a
second hash of an equal payload, against the table produced by the first,
returns the identity of the first). -/
theorem ParsedRoute.hash_identity_contract (r : ParsedRoute V)
    (table : List (Nat × Option V)) (gen : Nat → Nat)
    (h1 : ∃ n, gen n ∉ table.map Prod.fst) :
    (∀ k, findKnownVariant r.data table = some k → r.hash table gen h1 = (k, table)) ∧
    (findKnownVariant r.data table = none →
      (r.hash table gen h1).1 ∉ table.map Prod.fst) ∧
    (∀ e ∈ table, e ∈ (r.hash table gen h1).2) ∧
    (∀ r2 : ParsedRoute V, r2.data = r.data →
      ∀ h2 : ∃ n, gen n ∉ ((r.hash table gen h1).2).map Prod.fst,
        (r2.hash ((r.hash table gen h1).2) gen h2).1 = (r.hash table gen h1).1) := by
  refine ⟨?_, ?_, ?_, ?_⟩
  · intro k hk
    simp [ParsedRoute.hash, hk]
  · intro hn
    simp only [ParsedRoute.hash, hn]
    exact Nat.find_spec h1
  · intro e he
    cases hf : findKnownVariant r.data table with
    | some k => simpa [ParsedRoute.hash, hf] using he
    | none =>
      simp only [ParsedRoute.hash, hf]
      exact mem_insertKnownVariant (Nat.find_spec h1) e he
  · intro r2 hdata h2
    cases hf : findKnownVariant r.data table with
    | some k => simp [ParsedRoute.hash, hf, hdata]
    | none =>
      simp only [ParsedRoute.hash, hf, hdata,
        findKnownVariant_insertKnownVariant_self hf]

/-- Concrete instantiation of the C6 theorem: hashing payload 7 with an
empty table and the identity stream yields an identity that is fresh for
the table, and rehashing an equal payload returns the same identity. -/
theorem ParsedRoute.hash_identity_contract_witness :
    ((ParsedRoute.mk ("a") (some 7) false none).hash
        ([] : List (Nat × Option Nat)) (fun n => n) ⟨0, by simp⟩).1 ∉
      (([] : List (Nat × Option Nat)).map Prod.fst) := by
  have h := ParsedRoute.hash_identity_contract
    (ParsedRoute.mk ("a") (some 7) false none)
    ([] : List (Nat × Option Nat)) (fun n => n) ⟨0, by simp⟩
  exact h.2.1 rfl

/-- C10 (code bug): the claim states that ParsedRoute::operator!= is the
logical negation of ParsedRoute::operator==.  The source joins the
componentwise disequalities with logical and rather than or, so for two
routes sharing a name but differing in data both operators return false:
the inequality operator is not the negation of the equality operator. -/
theorem ParsedRoute.neOp_not_negation_of_eqOp :
    ParsedRoute.eqOp (ParsedRoute.mk ("x") (some 0) false none)
        (ParsedRoute.mk ("x") (some 1) false none) = false ∧
      ParsedRoute.neOp (ParsedRoute.mk ("x") (some 0) false none)
        (ParsedRoute.mk ("x") (some 1) false none) = false := by
  constructor <;> rfl

/-- Modelled from the spec: a RouteDefinition of the Route Table (PageRoute
in the header), carrying a name, the cache flag, and the advisory cost.
The page factory (a QQmlComponent) is opaque; the model creates fresh page
instance identifiers from a counter instead of invoking it.  Missing from
the reviewed tree: the PageRouter translation unit that reads these
definitions. -/
structure RouteDef where
  name : String
  cache : Bool
  cost : Nat
deriving DecidableEq

/-- Modelled from the spec: one step of a route specification, either a
bare name (data none, the invalid QVariant) or a name with a data
payload. -/
structure RouteStep (V : Type) where
  name : String
  data : Option V
deriving DecidableEq

/-- Modelled from the spec: a ResolvedRoute, one entry of the live
navigation stack: name, data payload, cache flag, and the constructed page
instance (an instance identifier; identical identifiers mean the identical
page object). -/
structure ResolvedRoute (V : Type) where
  name : String
  data : Option V
  cache : Bool
  item : Nat
deriving DecidableEq

/-- Modelled from the spec: the error taxonomy a reimplementation must
surface at the API boundary. -/
inductive RouterError where
  | RouteNotFound
  | CannotPopRoot
  | NoInitialRoute
  | DesyncFailure
deriving DecidableEq

/-- Modelled from the spec: the instance cache, a mapping from (name,
identity of data) to a previously built page instance.  Per the spec's
design notes the surrogate identity may be replaced by the payload value
itself as long as equal-by-value payloads share a cache key, so the model
keys the cache by (name, data) directly and stores the cached page
instance identifier. -/
abbrev CacheMap (V : Type) : Type := List ((String × Option V) × Nat)

/-- Modelled from the spec: consulting the instance cache and, on a hit,
taking the entry out of the cache (an instance is owned by exactly one of
the live stack and the cache, never both). -/
def cacheTake : CacheMap V → String × Option V → Option (Nat × CacheMap V)
  | [], _ => none
  | (k, it) :: rest, key =>
    if k = key then some (it, rest)
    else
      match cacheTake rest key with
      | none => none
      | some (it2, rest2) => some (it2, (k, it) :: rest2)

/-- Modelled from the spec: inserting an entry into the instance cache,
replacing any entry under an equal key. -/
def cacheInsert : CacheMap V → String × Option V → Nat → CacheMap V
  | [], key, it => [(key, it)]
  | (k, i0) :: rest, key, it =>
    if k = key then (key, it) :: rest else (k, i0) :: cacheInsert rest key it

/-- Modelled from the spec: PageRouter::placeInCache.  A cacheable route
released from the live stack moves its instance into the cache under
(name, data); a non-cacheable route is destroyed, leaving the cache
unchanged. -/
def placeInCache (c : CacheMap V) (r : ResolvedRoute V) : CacheMap V :=
  if r.cache then cacheInsert c (r.name, r.data) r.item else c

/-- Modelled from the spec: PageRouter::routesValueForKey and the Route
Table lookup contract: the first registered definition whose name matches,
found by a linear scan in registration order; duplicate names are legal
and the first registered wins. -/
def lookupRoute (rs : List RouteDef) (nm : String) : Option RouteDef :=
  rs.find? (fun r => r.name == nm)

/-- Modelled from the spec: the result of resolving one route step that is
not reused from the live stack: the resolved route, the cache state after
any consultation, and the fresh-instance counter. -/
structure StepOut (V : Type) where
  route : ResolvedRoute V
  cache : CacheMap V
  next : Nat

/-- Modelled from the spec: resolving one step against a route definition:
consult the instance cache first by (name, data identity); on a miss,
construct a new page instance via the definition's factory (modelled by
taking the next fresh instance identifier). -/
def resolveStep (rd : RouteDef) (st : RouteStep V) (cache : CacheMap V) (next : Nat) :
    StepOut V :=
  match cacheTake cache (st.name, st.data) with
  | some (it, cache2) => ⟨⟨st.name, st.data, rd.cache, it⟩, cache2, next⟩
  | none => ⟨⟨st.name, st.data, rd.cache, next⟩, cache, next + 1⟩

/-- Modelled from the spec: the result of resolving a whole target
sequence: the new stack, the cache and counter states, and the instance
identifiers newly attached to the visual widget (entries not reused from
the live stack). -/
structure ResolveOut (V : Type) where
  stack : List (ResolvedRoute V)
  cache : CacheMap V
  next : Nat
  added : List Nat

/-- Modelled from the spec: resolution pass of PageRouter::navigateToRoute.
Each step is looked up in the Route Table (a name absent from the table
fails with RouteNotFound before any state is published); a step whose
(name, data) equals the live stack entry at the same position reuses that
already-attached entry, otherwise the step is resolved through the cache
or freshly constructed. -/
def navResolve (rs : List RouteDef) :
    List (RouteStep V) → List (ResolvedRoute V) → CacheMap V → Nat →
      Except RouterError (ResolveOut V)
  | [], _, cache, next => .ok ⟨[], cache, next, []⟩
  | st :: sts, old, cache, next =>
    match lookupRoute rs st.name with
    | none => .error .RouteNotFound
    | some rd =>
      match old with
      | r0 :: olds =>
        if r0.name = st.name ∧ r0.data = st.data then
          match navResolve rs sts olds cache next with
          | .error e => .error e
          | .ok out => .ok ⟨r0 :: out.stack, out.cache, out.next, out.added⟩
        else
          let so := resolveStep rd st cache next
          match navResolve rs sts olds so.cache so.next with
          | .error e => .error e
          | .ok out => .ok ⟨so.route :: out.stack, out.cache, out.next, so.route.item :: out.added⟩
      | [] =>
        let so := resolveStep rd st cache next
        match navResolve rs sts [] so.cache so.next with
        | .error e => .error e
        | .ok out => .ok ⟨so.route :: out.stack, out.cache, out.next, so.route.item :: out.added⟩

/-- Modelled from the spec: the live stack entries released by a
navigation, namely every currently active resolved route that is not
present in the new target sequence. -/
def releasedRoutes (old newStack : List (ResolvedRoute V)) : List (ResolvedRoute V) :=
  match old with
  | [] => []
  | r :: rest =>
    if r ∈ newStack then releasedRoutes rest newStack
    else r :: releasedRoutes rest newStack

/-- Modelled from the spec: moving every released cacheable route into the
instance cache, in stack order; non-cacheable released routes are
destroyed. -/
def placeAllInCache (c : CacheMap V) : List (ResolvedRoute V) → CacheMap V
  | [] => c
  | r :: rest => placeAllInCache (placeInCache c r) rest

/-- Modelled from the spec: the state owned by a PageRouter: the Route
Table, the live navigation stack (index 0 is the root), the instance
cache, the children of the puppeted ColumnView (instance identifiers, in
visual order), and the fresh-instance counter standing for the page
factories. -/
structure RouterState (V : Type) where
  routes : List RouteDef
  currentRoutes : List (ResolvedRoute V)
  cacheMap : CacheMap V
  children : List Nat
  nextItem : Nat
deriving DecidableEq

/-- Modelled from the spec: the observable outcome of one mutating router
call: the new state, the instance identifiers visually detached and
attached by the call, and the number of navigationChanged notifications
emitted (emitted only after the state is final). -/
structure NavResult (V : Type) where
  state : RouterState V
  removed : List Nat
  added : List Nat
  navEmits : Nat
deriving DecidableEq

/-- Modelled from the spec: PageRouter::navigateToRoute, replacing the
whole stack.  The target sequence is resolved (reusing live entries whose
position, name and data are unchanged, else cache, else fresh
construction); every live entry not present in the new sequence is
released (cacheable entries move to the cache, others are destroyed); the
ColumnView children are set to exactly the new stack's instances in order;
the stack record is replaced; one navigationChanged notification is
emitted.  On a RouteNotFound failure no successor state is produced: the
caller's state is untouched. -/
def navigateTo (s : RouterState V) (steps : List (RouteStep V)) :
    Except RouterError (NavResult V) :=
  match navResolve s.routes steps s.currentRoutes s.cacheMap s.nextItem with
  | .error e => .error e
  | .ok out =>
    let rel := releasedRoutes s.currentRoutes out.stack
    .ok ⟨⟨s.routes, out.stack, placeAllInCache out.cache rel,
          out.stack.map ResolvedRoute.item, out.next⟩,
        rel.map ResolvedRoute.item, out.added, 1⟩

/-- Modelled from the spec: PageRouter::pushRoute, resolving one step and
appending it to both the stack record and the ColumnView, touching no
existing entry, then emitting one navigationChanged notification. -/
def pushRoute (s : RouterState V) (st : RouteStep V) : Except RouterError (NavResult V) :=
  match lookupRoute s.routes st.name with
  | none => .error .RouteNotFound
  | some rd =>
    let so := resolveStep rd st s.cacheMap s.nextItem
    .ok ⟨⟨s.routes, s.currentRoutes ++ [so.route], so.cache,
          s.children ++ [so.route.item], so.next⟩,
        [], [so.route.item], 1⟩

/-- Modelled from the spec: PageRouter::popRoute, removing the last stack
entry and the last ColumnView child (the entry moves to the cache when
cacheable, else its instance is destroyed) and emitting one
navigationChanged notification; popping with a single entry on the stack
fails with CannotPopRoot, producing no successor state. -/
def popRoute (s : RouterState V) : Except RouterError (NavResult V) :=
  if s.currentRoutes.length ≤ 1 then .error .CannotPopRoot
  else
    match s.currentRoutes.getLast? with
    | none => .error .CannotPopRoot
    | some last =>
      .ok ⟨⟨s.routes, s.currentRoutes.dropLast, placeInCache s.cacheMap last,
            s.children.dropLast, s.nextItem⟩,
          [last.item], [], 1⟩

/-- Modelled from the spec: PageRouter::currentRoutes, serializing the
live stack back into the route-specification shape navigateToRoute
accepts. -/
def currentRoutesOf (s : RouterState V) : List (RouteStep V) :=
  s.currentRoutes.map (fun r => ⟨r.name, r.data⟩)

/-- Modelled from the spec: the matching loop of PageRouter::routeActive:
walk the specification against the stack from index 0; each step must
match the entry at its position by name, and by data value-equality when
the step carries data; a specification longer than the stack does not
match. -/
def specMatches : List (RouteStep V) → List (ResolvedRoute V) → Bool
  | [], _ => true
  | _ :: _, [] => false
  | st :: sts, r :: rs =>
    (st.name == r.name) &&
      (match st.data with
       | none => true
       | some d => r.data == some d) &&
      specMatches sts rs

/-- Modelled from the spec: PageRouter::routeActive, true when the given
route specification matches the current stack starting at the root. -/
def routeActive (s : RouterState V) (sp : List (RouteStep V)) : Bool :=
  specMatches sp s.currentRoutes

/-- The specification-side statement of the routeActive contract, written
from the spec's words: the specification is no longer than the stack and,
position by position from index 0, each step names its entry and, when the
step carries data, the entry holds an equal-by-value payload. -/
def MatchesFromRoot (sp : List (RouteStep V)) (stack : List (ResolvedRoute V)) : Prop :=
  sp.length ≤ stack.length ∧
    ∀ p ∈ sp.zip stack,
      p.1.name = p.2.name ∧ ∀ d, p.1.data = some d → p.2.data = some d

/-- Modelled from the spec: a freshly configured router: a Route Table,
an empty stack, an empty cache, an empty ColumnView, and no constructed
instances. -/
def initState (table : List RouteDef) : RouterState V :=
  ⟨table, [], [], [], 0⟩

/-- C1: routeActive(spec) is true exactly when the specification is a
prefix of the current stack anchored at index 0, each step matching its
entry by name and, when the step carries data, by value-equality of data.
A specification matching only a non-root-anchored contiguous suffix of the
stack therefore returns false, since the iff fails at index 0. -/
theorem routeActive_iff_matchesFromRoot (s : RouterState V) (sp : List (RouteStep V)) :
    routeActive s sp = true ↔ MatchesFromRoot sp s.currentRoutes := by
  unfold routeActive
  generalize s.currentRoutes = stack
  induction sp generalizing stack with
  | nil => simp [specMatches, MatchesFromRoot]
  | cons st sts ih =>
    cases stack with
    | nil =>
      simp [specMatches, MatchesFromRoot]
    | cons r rs =>
      simp only [specMatches, Bool.and_eq_true, beq_iff_eq]
      constructor
      · rintro ⟨⟨hname, hdata⟩, hrest⟩
        obtain ⟨hlen, hall⟩ := (ih rs).mp hrest
        refine ⟨by simpa using Nat.succ_le_succ hlen, ?_⟩
        intro p hp
        rw [List.zip_cons_cons] at hp
        rcases List.mem_cons.mp hp with hp | hp
        · subst hp
          refine ⟨hname, ?_⟩
          intro d hd
          rw [hd] at hdata
          simpa using hdata
        · exact hall p hp
      · rintro ⟨hlen, hall⟩
        obtain ⟨hname, hdataimp⟩ := hall (st, r) (by rw [List.zip_cons_cons]; exact List.mem_cons_self _ _)
        refine ⟨⟨hname, ?_⟩, (ih rs).mpr ⟨by simpa using Nat.le_of_succ_le_succ (by simpa using hlen), ?_⟩⟩
        · cases hsd : st.data with
          | none => rfl
          | some d => simpa using hdataimp d hsd
        · intro p hp
          exact hall p (by rw [List.zip_cons_cons]; exact List.mem_cons_of_mem _ hp)

/-- C7: Route Table lookup returns the first registered definition whose
name matches, scanning in registration order; a duplicate name later in
the table is legal and never consulted. -/
theorem lookupRoute_first_registered_wins (pre : List RouteDef) (r : RouteDef)
    (post : List RouteDef) (nm : String) (hpre : ∀ q ∈ pre, q.name ≠ nm)
    (hr : r.name = nm) : lookupRoute (pre ++ r :: post) nm = some r := by
  induction pre with
  | nil =>
    simp [lookupRoute, List.find?, hr]
  | cons q qs ih =>
    have hq : (q.name == nm) = false := by
      simpa using hpre q (List.mem_cons_self q qs)
    have ihq := ih (fun q2 hq2 => hpre q2 (List.mem_cons_of_mem _ hq2))
    simp only [lookupRoute, List.cons_append, List.find?, hq] at *
    exact ihq

/-- Concrete instantiation of the C7 theorem: with a table registering b,
then a cacheable a, then a second a, lookup of a returns the middle
definition (first registered wins over the duplicate). -/
theorem lookupRoute_first_registered_wins_witness :
    lookupRoute [⟨"b", false, 1⟩, ⟨"a", true, 2⟩,
        ⟨"a", false, 3⟩] ("a") =
      some ⟨"a", true, 2⟩ :=
  lookupRoute_first_registered_wins [⟨"b", false, 1⟩]
    ⟨"a", true, 2⟩ [⟨"a", false, 3⟩]
    ("a") (by decide) rfl

theorem navResolve_error_of_unregistered {rs : List RouteDef} {steps : List (RouteStep V)}
    {st : RouteStep V} (hmem : st ∈ steps) (hlk : lookupRoute rs st.name = none) :
    ∀ old cache next, navResolve rs steps old cache next = Except.error RouterError.RouteNotFound := by
  induction steps with
  | nil => cases hmem
  | cons s0 ss ih =>
    intro old cache next
    rcases List.mem_cons.mp hmem with h0 | h0
    · subst h0
      cases old with
      | nil => simp [navResolve, hlk]
      | cons r0 olds => simp [navResolve, hlk]
    · cases hl0 : lookupRoute rs s0.name with
      | none =>
        cases old with
        | nil => simp [navResolve, hl0]
        | cons r0 olds => simp [navResolve, hl0]
      | some rd =>
        cases old with
        | nil =>
          simp [navResolve, hl0, ih h0]
        | cons r0 olds =>
          by_cases hc : r0.name = s0.name ∧ r0.data = s0.data
          · simp [navResolve, hl0, if_pos hc, ih h0]
          · simp [navResolve, hl0, if_neg hc, ih h0]

/-- C8: popRoute with exactly one entry on the stack fails with
CannotPopRoot, and navigateToRoute with a step whose name is absent from
the Route Table fails with RouteNotFound; a failing call produces no
successor state, so the caller's stack, cache and widget are exactly as
before the call. -/
theorem popRoot_and_notFound_errors :
    (∀ s : RouterState V, s.currentRoutes.length = 1 →
      popRoute s = Except.error RouterError.CannotPopRoot) ∧
    (∀ (s : RouterState V) (steps : List (RouteStep V)) (st : RouteStep V),
      st ∈ steps → lookupRoute s.routes st.name = none →
      navigateTo s steps = Except.error RouterError.RouteNotFound) := by
  constructor
  · intro s h
    simp [popRoute, h]
  · intro s steps st hmem hlk
    simp [navigateTo, navResolve_error_of_unregistered hmem hlk]

/-- Concrete instantiation of the C8 theorem: popping a one-entry stack
fails with CannotPopRoot, and navigating to an unregistered name fails
with RouteNotFound. -/
theorem popRoot_and_notFound_errors_witness :
    popRoute (⟨[⟨"a", false, 1⟩],
        [⟨"a", none, false, 0⟩], [], [0], 1⟩ : RouterState Nat) =
      Except.error RouterError.CannotPopRoot ∧
    navigateTo (⟨[⟨"a", false, 1⟩], [], [], [], 0⟩ : RouterState Nat)
        [⟨"z", none⟩] =
      Except.error RouterError.RouteNotFound := by
  constructor
  · exact (popRoot_and_notFound_errors (V := Nat)).1 _ rfl
  · exact (popRoot_and_notFound_errors (V := Nat)).2 _ _ ⟨"z", none⟩
      (List.mem_singleton.mpr rfl) (by decide)

/-- C9: every successfully completing navigateToRoute, pushRoute or
popRoute call emits the navigationChanged notification exactly once, and
the result it publishes is final and consistent: the ColumnView children
are exactly the stack's page instances in stack order.  The model applies
each call as one atomic state transition, so no intermediate state is
observable through the public interface before the notification; a call
that fails emits nothing and publishes no state. -/
theorem nav_emits_once_and_consistent :
    (∀ (s : RouterState V) (steps : List (RouteStep V)) (res : NavResult V),
      navigateTo s steps = Except.ok res →
      res.navEmits = 1 ∧ res.state.children = res.state.currentRoutes.map ResolvedRoute.item) ∧
    (∀ (s : RouterState V) (st : RouteStep V) (res : NavResult V),
      s.children = s.currentRoutes.map ResolvedRoute.item →
      pushRoute s st = Except.ok res →
      res.navEmits = 1 ∧ res.state.children = res.state.currentRoutes.map ResolvedRoute.item) ∧
    (∀ (s : RouterState V) (res : NavResult V),
      s.children = s.currentRoutes.map ResolvedRoute.item →
      popRoute s = Except.ok res →
      res.navEmits = 1 ∧ res.state.children = res.state.currentRoutes.map ResolvedRoute.item) := by
  refine ⟨?_, ?_, ?_⟩
  · intro s steps res h
    cases hnr : navResolve s.routes steps s.currentRoutes s.cacheMap s.nextItem with
    | error e => rw [navigateTo, hnr] at h; cases h
    | ok out =>
      rw [navigateTo, hnr] at h
      simp only at h
      cases h
      exact ⟨rfl, rfl⟩
  · intro s st res hinv h
    cases hlk : lookupRoute s.routes st.name with
    | none => rw [pushRoute, hlk] at h; cases h
    | some rd =>
      rw [pushRoute, hlk] at h
      simp only at h
      cases h
      refine ⟨rfl, ?_⟩
      simp [hinv, List.map_append]
  · intro s res hinv h
    by_cases hlen : s.currentRoutes.length ≤ 1
    · rw [popRoute, if_pos hlen] at h; cases h
    · cases hlast : s.currentRoutes.getLast? with
      | none => rw [popRoute, if_neg hlen, hlast] at h; cases h
      | some last =>
        rw [popRoute, if_neg hlen, hlast] at h
        simp only at h
        cases h
        refine ⟨rfl, ?_⟩
        simp only [hinv]
        exact (List.map_dropLast _ _).symm

/-- Concrete instantiation of the C9 theorem: a navigate, a push and a pop
on a one-route table each emit exactly one navigationChanged notification
and leave the ColumnView children equal to the stack's instances. -/
theorem nav_emits_once_and_consistent_witness :
    ((⟨⟨[⟨"a", false, 1⟩], [⟨"a", none, false, 0⟩],
          [], [0], 1⟩, [], [0], 1⟩ : NavResult Nat).navEmits = 1 ∧
      (⟨⟨[⟨"a", false, 1⟩], [⟨"a", none, false, 0⟩],
          [], [0], 1⟩, [], [0], 1⟩ : NavResult Nat).state.children =
        (⟨⟨[⟨"a", false, 1⟩], [⟨"a", none, false, 0⟩],
          [], [0], 1⟩, [], [0], 1⟩ : NavResult Nat).state.currentRoutes.map ResolvedRoute.item) ∧
    ((⟨⟨[⟨"a", false, 1⟩],
          [⟨"a", none, false, 0⟩, ⟨"a", none, false, 1⟩],
          [], [0, 1], 2⟩, [], [1], 1⟩ : NavResult Nat).navEmits = 1 ∧
      (⟨⟨[⟨"a", false, 1⟩],
          [⟨"a", none, false, 0⟩, ⟨"a", none, false, 1⟩],
          [], [0, 1], 2⟩, [], [1], 1⟩ : NavResult Nat).state.children =
        (⟨⟨[⟨"a", false, 1⟩],
          [⟨"a", none, false, 0⟩, ⟨"a", none, false, 1⟩],
          [], [0, 1], 2⟩, [], [1], 1⟩ : NavResult Nat).state.currentRoutes.map ResolvedRoute.item) ∧
    ((⟨⟨[⟨"a", false, 1⟩], [⟨"a", none, false, 0⟩],
          [], [0], 2⟩, [1], [], 1⟩ : NavResult Nat).navEmits = 1 ∧
      (⟨⟨[⟨"a", false, 1⟩], [⟨"a", none, false, 0⟩],
          [], [0], 2⟩, [1], [], 1⟩ : NavResult Nat).state.children =
        (⟨⟨[⟨"a", false, 1⟩], [⟨"a", none, false, 0⟩],
          [], [0], 2⟩, [1], [], 1⟩ : NavResult Nat).state.currentRoutes.map ResolvedRoute.item) := by
  refine ⟨?_, ?_, ?_⟩
  · exact (nav_emits_once_and_consistent (V := Nat)).1
      (initState [⟨"a", false, 1⟩]) [⟨"a", none⟩] _ rfl
  · exact (nav_emits_once_and_consistent (V := Nat)).2.1
      ⟨[⟨"a", false, 1⟩], [⟨"a", none, false, 0⟩], [], [0], 1⟩
      ⟨"a", none⟩ _ rfl rfl
  · exact (nav_emits_once_and_consistent (V := Nat)).2.2
      ⟨[⟨"a", false, 1⟩],
        [⟨"a", none, false, 0⟩, ⟨"a", none, false, 1⟩],
        [], [0, 1], 2⟩ _ rfl rfl

theorem resolveStep_route_fields (rd : RouteDef) (st : RouteStep V)
    (cache : CacheMap V) (next : Nat) :
    (resolveStep rd st cache next).route.name = st.name ∧
      (resolveStep rd st cache next).route.data = st.data := by
  unfold resolveStep
  cases cacheTake cache (st.name, st.data) with
  | none => exact ⟨rfl, rfl⟩
  | some p =>
    obtain ⟨it, c2⟩ := p
    exact ⟨rfl, rfl⟩

theorem navResolve_ok_of_registered {rs : List RouteDef} {steps : List (RouteStep V)}
    (hreg : ∀ st ∈ steps, (lookupRoute rs st.name).isSome) :
    ∀ old cache next, ∃ out, navResolve rs steps old cache next = Except.ok out ∧
      out.stack.map (fun r => (⟨r.name, r.data⟩ : RouteStep V)) = steps := by
  induction steps with
  | nil =>
    intro old cache next
    cases old with
    | nil => exact ⟨⟨[], cache, next, []⟩, rfl, rfl⟩
    | cons r0 olds => exact ⟨⟨[], cache, next, []⟩, rfl, rfl⟩
  | cons s0 ss ih =>
    intro old cache next
    obtain ⟨rd, hrd⟩ := Option.isSome_iff_exists.mp (hreg s0 (List.mem_cons_self s0 ss))
    have hregss : ∀ st ∈ ss, (lookupRoute rs st.name).isSome :=
      fun st hst => hreg st (List.mem_cons_of_mem _ hst)
    have hhead : (⟨(resolveStep rd s0 cache next).route.name,
        (resolveStep rd s0 cache next).route.data⟩ : RouteStep V) = s0 := by
      obtain ⟨h1, h2⟩ := resolveStep_route_fields rd s0 cache next
      rw [h1, h2]
    cases old with
    | nil =>
      obtain ⟨out, hout, hmap⟩ :=
        ih hregss [] (resolveStep rd s0 cache next).cache (resolveStep rd s0 cache next).next
      refine ⟨⟨(resolveStep rd s0 cache next).route :: out.stack, out.cache, out.next,
        (resolveStep rd s0 cache next).route.item :: out.added⟩, ?_, ?_⟩
      · simp only [navResolve, hrd, hout]
      · simp only [List.map_cons, hmap, hhead]
    | cons r0 olds =>
      by_cases hc : r0.name = s0.name ∧ r0.data = s0.data
      · obtain ⟨out, hout, hmap⟩ := ih hregss olds cache next
        refine ⟨⟨r0 :: out.stack, out.cache, out.next, out.added⟩, ?_, ?_⟩
        · simp only [navResolve, hrd, if_pos hc, hout]
        · have : (⟨r0.name, r0.data⟩ : RouteStep V) = s0 := by rw [hc.1, hc.2]
          simp only [List.map_cons, hmap, this]
      · obtain ⟨out, hout, hmap⟩ :=
          ih hregss olds (resolveStep rd s0 cache next).cache (resolveStep rd s0 cache next).next
        refine ⟨⟨(resolveStep rd s0 cache next).route :: out.stack, out.cache, out.next,
          (resolveStep rd s0 cache next).route.item :: out.added⟩, ?_, ?_⟩
        · simp only [navResolve, hrd, if_neg hc, hout]
        · simp only [List.map_cons, hmap, hhead]

/-- C2: navigating to a sequence of registered steps with pairwise
distinct names and then serializing the stack through currentRoutes
reproduces exactly that sequence: names match exactly and data round-trips
by value-equality. -/
theorem navigateTo_currentRoutes_roundTrip (s : RouterState V) (S : List (RouteStep V))
    (hnodup : (S.map RouteStep.name).Nodup)
    (hreg : ∀ st ∈ S, (lookupRoute s.routes st.name).isSome) :
    (navigateTo s S).map (fun res => currentRoutesOf res.state) = Except.ok S := by
  obtain ⟨out, hout, hmap⟩ :=
    navResolve_ok_of_registered hreg s.currentRoutes s.cacheMap s.nextItem
  rw [navigateTo, hout]
  simp only [Except.map, currentRoutesOf]
  rw [hmap]

/-- Concrete instantiation of the C2 theorem: navigating to two distinct
registered steps with payloads 1 and 2 round-trips through
currentRoutes. -/
theorem navigateTo_currentRoutes_roundTrip_witness :
    (navigateTo (initState [⟨"a", false, 1⟩, ⟨"b", true, 2⟩])
        [⟨"a", some 1⟩, ⟨"b", some 2⟩]).map
      (fun res => currentRoutesOf res.state) =
      Except.ok [(⟨"a", some 1⟩ : RouteStep Nat), ⟨"b", some 2⟩] :=
  navigateTo_currentRoutes_roundTrip
    (initState [⟨"a", false, 1⟩, ⟨"b", true, 2⟩])
    [⟨"a", some 1⟩, ⟨"b", some 2⟩]
    (by decide) (by decide)

theorem pushRoute_ok_stack {s : RouterState V} {x : RouteStep V} {r2 : NavResult V}
    (h : pushRoute s x = Except.ok r2) :
    ∃ rt : ResolvedRoute V, r2.state.currentRoutes = s.currentRoutes ++ [rt] ∧
      r2.state.children = s.children ++ [rt.item] := by
  cases hlk : lookupRoute s.routes x.name with
  | none => rw [pushRoute, hlk] at h; cases h
  | some rd =>
    rw [pushRoute, hlk] at h
    simp only at h
    cases h
    exact ⟨_, rfl, rfl⟩

theorem popRoute_ok_stack {s : RouterState V} {r3 : NavResult V}
    (h : popRoute s = Except.ok r3) :
    r3.state.currentRoutes = s.currentRoutes.dropLast ∧
      r3.state.children = s.children.dropLast := by
  by_cases hlen : s.currentRoutes.length ≤ 1
  · rw [popRoute, if_pos hlen] at h; cases h
  · cases hlast : s.currentRoutes.getLast? with
    | none => rw [popRoute, if_neg hlen, hlast] at h; cases h
    | some last =>
      rw [popRoute, if_neg hlen, hlast] at h
      simp only at h
      cases h
      exact ⟨rfl, rfl⟩

/-- C5: after navigating to a registered nonempty sequence S, pushing a
registered step and popping it again restores the stack that existed
immediately after the navigation, with every entry of S holding the
identical page instance (the very same entries, items included), and the
ColumnView children likewise restored. -/
theorem push_pop_inverse (s : RouterState V) (S : List (RouteStep V)) (x : RouteStep V)
    (r1 r2 r3 : NavResult V)
    (hS : S ≠ [])
    (hreg : ∀ st ∈ S, (lookupRoute s.routes st.name).isSome)
    (hx : (lookupRoute s.routes x.name).isSome)
    (h1 : navigateTo s S = Except.ok r1)
    (h2 : pushRoute r1.state x = Except.ok r2)
    (h3 : popRoute r2.state = Except.ok r3) :
    r3.state.currentRoutes = r1.state.currentRoutes ∧
      r3.state.children = r1.state.children := by
  obtain ⟨rt, hst2, hch2⟩ := pushRoute_ok_stack h2
  obtain ⟨hst3, hch3⟩ := popRoute_ok_stack h3
  rw [hst3, hst2, hch3, hch2, List.dropLast_concat, List.dropLast_concat]
  exact ⟨rfl, rfl⟩

/-- Concrete instantiation of the C5 theorem: a navigate to one route,
a push of a second copy, and a pop restore the original one-entry stack
and ColumnView. -/
theorem push_pop_inverse_witness :
    (⟨⟨[⟨"a", false, 1⟩], [⟨"a", none, false, 0⟩],
        [], [0], 2⟩, [1], [], 1⟩ : NavResult Nat).state.currentRoutes =
      (⟨⟨[⟨"a", false, 1⟩], [⟨"a", none, false, 0⟩],
        [], [0], 1⟩, [], [0], 1⟩ : NavResult Nat).state.currentRoutes ∧
    (⟨⟨[⟨"a", false, 1⟩], [⟨"a", none, false, 0⟩],
        [], [0], 2⟩, [1], [], 1⟩ : NavResult Nat).state.children =
      (⟨⟨[⟨"a", false, 1⟩], [⟨"a", none, false, 0⟩],
        [], [0], 1⟩, [], [0], 1⟩ : NavResult Nat).state.children :=
  push_pop_inverse (initState [⟨"a", false, 1⟩])
    [⟨"a", none⟩] ⟨"a", none⟩
    ⟨⟨[⟨"a", false, 1⟩], [⟨"a", none, false, 0⟩],
        [], [0], 1⟩, [], [0], 1⟩
    ⟨⟨[⟨"a", false, 1⟩],
        [⟨"a", none, false, 0⟩, ⟨"a", none, false, 1⟩],
        [], [0, 1], 2⟩, [], [1], 1⟩
    ⟨⟨[⟨"a", false, 1⟩], [⟨"a", none, false, 0⟩],
        [], [0], 2⟩, [1], [], 1⟩
    (by decide) (by decide) (by decide) rfl rfl rfl

/-- C3: starting from a fresh router, navigating to a three-step route and
then to a target differing only in the last step keeps the first two
stack entries identical (the very same page instances 0 and 1, never
reconstructed), visually detaches only the replaced entry's instance and
attaches only the new entry's instance, and leaves the ColumnView children
in exactly the new stack's order. -/
theorem navigateTo_minimal_diff (table : List RouteDef) (a b c d : RouteStep V)
    (dA dB dC dD : RouteDef) (r1 r2 : NavResult V)
    (hA : lookupRoute table a.name = some dA)
    (hB : lookupRoute table b.name = some dB)
    (hC : lookupRoute table c.name = some dC)
    (hD : lookupRoute table d.name = some dD)
    (hcd : ¬(c.name = d.name ∧ c.data = d.data))
    (h1 : navigateTo (initState table) [a, b, c] = Except.ok r1)
    (h2 : navigateTo r1.state [a, b, d] = Except.ok r2) :
    r1.state.currentRoutes = [⟨a.name, a.data, dA.cache, 0⟩, ⟨b.name, b.data, dB.cache, 1⟩,
      ⟨c.name, c.data, dC.cache, 2⟩] ∧
    r2.state.currentRoutes = [⟨a.name, a.data, dA.cache, 0⟩, ⟨b.name, b.data, dB.cache, 1⟩,
      ⟨d.name, d.data, dD.cache, 3⟩] ∧
    r2.removed = [2] ∧
    r2.added = [3] ∧
    r2.state.children = [0, 1, 3] := by
  have hc1 : navigateTo (initState table) [a, b, c] = Except.ok
      ⟨⟨table, [⟨a.name, a.data, dA.cache, 0⟩, ⟨b.name, b.data, dB.cache, 1⟩,
          ⟨c.name, c.data, dC.cache, 2⟩], [], [0, 1, 2], 3⟩, [], [0, 1, 2], 1⟩ := by
    simp [navigateTo, navResolve, resolveStep, cacheTake, initState, releasedRoutes,
      placeAllInCache, hA, hB, hC]
  rw [h1] at hc1
  cases Except.ok.inj hc1
  cases hdc : dC.cache with
  | false =>
    have hc2 : navigateTo
        (⟨⟨table, [⟨a.name, a.data, dA.cache, 0⟩, ⟨b.name, b.data, dB.cache, 1⟩,
            ⟨c.name, c.data, dC.cache, 2⟩], [], [0, 1, 2], 3⟩, [], [0, 1, 2], 1⟩ :
          NavResult V).state [a, b, d] = Except.ok
        ⟨⟨table, [⟨a.name, a.data, dA.cache, 0⟩, ⟨b.name, b.data, dB.cache, 1⟩,
            ⟨d.name, d.data, dD.cache, 3⟩], [], [0, 1, 3], 4⟩, [2], [3], 1⟩ := by
      simp [navigateTo, navResolve, resolveStep, cacheTake, releasedRoutes,
        placeAllInCache, placeInCache, hA, hB, hD, hcd, hdc]
    rw [h2] at hc2
    cases Except.ok.inj hc2
    exact ⟨rfl, rfl, rfl, rfl, rfl⟩
  | true =>
    have hc2 : navigateTo
        (⟨⟨table, [⟨a.name, a.data, dA.cache, 0⟩, ⟨b.name, b.data, dB.cache, 1⟩,
            ⟨c.name, c.data, dC.cache, 2⟩], [], [0, 1, 2], 3⟩, [], [0, 1, 2], 1⟩ :
          NavResult V).state [a, b, d] = Except.ok
        ⟨⟨table, [⟨a.name, a.data, dA.cache, 0⟩, ⟨b.name, b.data, dB.cache, 1⟩,
            ⟨d.name, d.data, dD.cache, 3⟩], [((c.name, c.data), 2)], [0, 1, 3], 4⟩,
          [2], [3], 1⟩ := by
      simp [navigateTo, navResolve, resolveStep, cacheTake, releasedRoutes,
        placeAllInCache, placeInCache, cacheInsert, hA, hB, hD, hcd, hdc]
    rw [h2] at hc2
    cases Except.ok.inj hc2
    exact ⟨rfl, rfl, rfl, rfl, rfl⟩

/-- Concrete instantiation of the C3 theorem: with four registered routes,
navigating to a, b, c and then to a, b, d keeps instances 0 and 1, detaches
only instance 2, attaches only instance 3, and orders the ColumnView as
the new stack. -/
theorem navigateTo_minimal_diff_witness :
    (⟨⟨[⟨"a", false, 1⟩, ⟨"b", false, 1⟩,
          ⟨"c", true, 1⟩, ⟨"d", false, 1⟩],
        [⟨"a", none, false, 0⟩, ⟨"b", none, false, 1⟩,
          ⟨"c", none, true, 2⟩], [], [0, 1, 2], 3⟩,
      [], [0, 1, 2], 1⟩ : NavResult Nat).state.currentRoutes =
        [⟨"a", none, false, 0⟩, ⟨"b", none, false, 1⟩,
          ⟨"c", none, true, 2⟩] ∧
    (⟨⟨[⟨"a", false, 1⟩, ⟨"b", false, 1⟩,
          ⟨"c", true, 1⟩, ⟨"d", false, 1⟩],
        [⟨"a", none, false, 0⟩, ⟨"b", none, false, 1⟩,
          ⟨"d", none, false, 3⟩], [(("c", none), 2)],
        [0, 1, 3], 4⟩, [2], [3], 1⟩ : NavResult Nat).state.currentRoutes =
        [⟨"a", none, false, 0⟩, ⟨"b", none, false, 1⟩,
          ⟨"d", none, false, 3⟩] ∧
    (⟨⟨[⟨"a", false, 1⟩, ⟨"b", false, 1⟩,
          ⟨"c", true, 1⟩, ⟨"d", false, 1⟩],
        [⟨"a", none, false, 0⟩, ⟨"b", none, false, 1⟩,
          ⟨"d", none, false, 3⟩], [(("c", none), 2)],
        [0, 1, 3], 4⟩, [2], [3], 1⟩ : NavResult Nat).removed = [2] ∧
    (⟨⟨[⟨"a", false, 1⟩, ⟨"b", false, 1⟩,
          ⟨"c", true, 1⟩, ⟨"d", false, 1⟩],
        [⟨"a", none, false, 0⟩, ⟨"b", none, false, 1⟩,
          ⟨"d", none, false, 3⟩], [(("c", none), 2)],
        [0, 1, 3], 4⟩, [2], [3], 1⟩ : NavResult Nat).added = [3] ∧
    (⟨⟨[⟨"a", false, 1⟩, ⟨"b", false, 1⟩,
          ⟨"c", true, 1⟩, ⟨"d", false, 1⟩],
        [⟨"a", none, false, 0⟩, ⟨"b", none, false, 1⟩,
          ⟨"d", none, false, 3⟩], [(("c", none), 2)],
        [0, 1, 3], 4⟩, [2], [3], 1⟩ : NavResult Nat).state.children = [0, 1, 3] :=
  navigateTo_minimal_diff
    [⟨"a", false, 1⟩, ⟨"b", false, 1⟩,
      ⟨"c", true, 1⟩, ⟨"d", false, 1⟩]
    ⟨"a", none⟩ ⟨"b", none⟩
    ⟨"c", none⟩ ⟨"d", none⟩
    ⟨"a", false, 1⟩ ⟨"b", false, 1⟩
    ⟨"c", true, 1⟩ ⟨"d", false, 1⟩
    ⟨⟨[⟨"a", false, 1⟩, ⟨"b", false, 1⟩,
          ⟨"c", true, 1⟩, ⟨"d", false, 1⟩],
        [⟨"a", none, false, 0⟩, ⟨"b", none, false, 1⟩,
          ⟨"c", none, true, 2⟩], [], [0, 1, 2], 3⟩,
      [], [0, 1, 2], 1⟩
    ⟨⟨[⟨"a", false, 1⟩, ⟨"b", false, 1⟩,
          ⟨"c", true, 1⟩, ⟨"d", false, 1⟩],
        [⟨"a", none, false, 0⟩, ⟨"b", none, false, 1⟩,
          ⟨"d", none, false, 3⟩], [(("c", none), 2)],
        [0, 1, 3], 4⟩, [2], [3], 1⟩
    rfl rfl rfl rfl (by decide) rfl rfl

/-- C4: for a route registered as cacheable, navigating it onto a fresh
router with data dt, removing it from the stack (which moves its instance
into the cache), and resolving it again with data dt2 reuses the
previously built page instance exactly when dt2 equals dt by value: with
equal data the same instance returns with no construction (the instance
counter does not move and the cache entry is consumed), and with unequal
data a new instance is constructed while the old one remains in the
cache. -/
theorem cache_reuse_iff_equal_data (table : List RouteDef) (st0 : RouteStep V)
    (rname : String) (dt dt2 : Option V) (d0 dr : RouteDef) (r1 r2 : NavResult V)
    (h0 : lookupRoute table st0.name = some d0)
    (hr : lookupRoute table rname = some dr)
    (hc : dr.cache = true)
    (h1 : navigateTo (initState table) [st0, ⟨rname, dt⟩] = Except.ok r1)
    (h2 : popRoute r1.state = Except.ok r2) :
    r1.state.currentRoutes = [⟨st0.name, st0.data, d0.cache, 0⟩, ⟨rname, dt, true, 1⟩] ∧
    r2.state.currentRoutes = [⟨st0.name, st0.data, d0.cache, 0⟩] ∧
    r2.state.cacheMap = [((rname, dt), 1)] ∧
    (dt2 = dt → ∀ r3 : NavResult V, pushRoute r2.state ⟨rname, dt2⟩ = Except.ok r3 →
      r3.state.currentRoutes = [⟨st0.name, st0.data, d0.cache, 0⟩, ⟨rname, dt2, true, 1⟩] ∧
      r3.state.nextItem = r1.state.nextItem ∧
      r3.state.cacheMap = []) ∧
    (dt2 ≠ dt → ∀ r3 : NavResult V, pushRoute r2.state ⟨rname, dt2⟩ = Except.ok r3 →
      r3.state.currentRoutes = [⟨st0.name, st0.data, d0.cache, 0⟩, ⟨rname, dt2, true, 2⟩] ∧
      ((rname, dt), 1) ∈ r3.state.cacheMap ∧
      r3.state.nextItem = r1.state.nextItem + 1) := by
  have hc1 : navigateTo (initState table) [st0, ⟨rname, dt⟩] = Except.ok
      ⟨⟨table, [⟨st0.name, st0.data, d0.cache, 0⟩, ⟨rname, dt, true, 1⟩], [], [0, 1], 2⟩,
        [], [0, 1], 1⟩ := by
    simp [navigateTo, navResolve, resolveStep, cacheTake, initState, releasedRoutes,
      placeAllInCache, h0, hr, hc]
  rw [h1] at hc1
  cases Except.ok.inj hc1
  have hc2 : popRoute (⟨⟨table, [⟨st0.name, st0.data, d0.cache, 0⟩, ⟨rname, dt, true, 1⟩],
      [], [0, 1], 2⟩, [], [0, 1], 1⟩ : NavResult V).state = Except.ok
      ⟨⟨table, [⟨st0.name, st0.data, d0.cache, 0⟩], [((rname, dt), 1)], [0], 2⟩,
        [1], [], 1⟩ := rfl
  rw [h2] at hc2
  cases Except.ok.inj hc2
  refine ⟨rfl, rfl, rfl, ?_, ?_⟩
  · intro hdd r3 h3
    subst hdd
    have hc3 : pushRoute (⟨⟨table, [⟨st0.name, st0.data, d0.cache, 0⟩],
        [((rname, dt2), 1)], [0], 2⟩, [1], [], 1⟩ : NavResult V).state ⟨rname, dt2⟩ =
        Except.ok ⟨⟨table, [⟨st0.name, st0.data, d0.cache, 0⟩, ⟨rname, dt2, true, 1⟩],
          [], [0, 1], 2⟩, [], [1], 1⟩ := by
      simp [pushRoute, resolveStep, cacheTake, hr, hc]
    rw [h3] at hc3
    cases Except.ok.inj hc3
    exact ⟨rfl, rfl, rfl⟩
  · intro hdd r3 h3
    have hc3 : pushRoute (⟨⟨table, [⟨st0.name, st0.data, d0.cache, 0⟩],
        [((rname, dt), 1)], [0], 2⟩, [1], [], 1⟩ : NavResult V).state ⟨rname, dt2⟩ =
        Except.ok ⟨⟨table, [⟨st0.name, st0.data, d0.cache, 0⟩, ⟨rname, dt2, true, 2⟩],
          [((rname, dt), 1)], [0, 2], 3⟩, [], [2], 1⟩ := by
      simp [pushRoute, resolveStep, cacheTake, hr, hc, Ne.symm hdd]
    rw [h3] at hc3
    cases Except.ok.inj hc3
    refine ⟨rfl, ?_, rfl⟩
    simp

/-- Concrete instantiation of the C4 theorem: after navigating a cacheable
route with payload 5 and popping it into the cache, re-resolving with
payload 5 reuses instance 1 with no construction and consumes the cache
entry, while re-resolving with payload 6 constructs instance 2 and leaves
the old entry cached. -/
theorem cache_reuse_iff_equal_data_witness :
    ((⟨⟨[⟨"a", false, 1⟩, ⟨"r", true, 1⟩],
          [⟨"a", none, false, 0⟩, ⟨"r", some 5, true, 1⟩],
          [], [0, 1], 2⟩, [], [1], 1⟩ : NavResult Nat).state.currentRoutes =
        [⟨"a", none, false, 0⟩, ⟨"r", some 5, true, 1⟩] ∧
      (⟨⟨[⟨"a", false, 1⟩, ⟨"r", true, 1⟩],
          [⟨"a", none, false, 0⟩, ⟨"r", some 5, true, 1⟩],
          [], [0, 1], 2⟩, [], [1], 1⟩ : NavResult Nat).state.nextItem =
        (⟨⟨[⟨"a", false, 1⟩, ⟨"r", true, 1⟩],
          [⟨"a", none, false, 0⟩, ⟨"r", some 5, true, 1⟩],
          [], [0, 1], 2⟩, [], [0, 1], 1⟩ : NavResult Nat).state.nextItem ∧
      (⟨⟨[⟨"a", false, 1⟩, ⟨"r", true, 1⟩],
          [⟨"a", none, false, 0⟩, ⟨"r", some 5, true, 1⟩],
          [], [0, 1], 2⟩, [], [1], 1⟩ : NavResult Nat).state.cacheMap = []) ∧
    ((⟨⟨[⟨"a", false, 1⟩, ⟨"r", true, 1⟩],
          [⟨"a", none, false, 0⟩, ⟨"r", some 6, true, 2⟩],
          [(("r", some 5), 1)], [0, 2], 3⟩, [], [2], 1⟩ :
        NavResult Nat).state.currentRoutes =
        [⟨"a", none, false, 0⟩, ⟨"r", some 6, true, 2⟩] ∧
      (("r", some 5), 1) ∈
        (⟨⟨[⟨"a", false, 1⟩, ⟨"r", true, 1⟩],
          [⟨"a", none, false, 0⟩, ⟨"r", some 6, true, 2⟩],
          [(("r", some 5), 1)], [0, 2], 3⟩, [], [2], 1⟩ :
        NavResult Nat).state.cacheMap ∧
      (⟨⟨[⟨"a", false, 1⟩, ⟨"r", true, 1⟩],
          [⟨"a", none, false, 0⟩, ⟨"r", some 6, true, 2⟩],
          [(("r", some 5), 1)], [0, 2], 3⟩, [], [2], 1⟩ :
        NavResult Nat).state.nextItem =
        (⟨⟨[⟨"a", false, 1⟩, ⟨"r", true, 1⟩],
          [⟨"a", none, false, 0⟩, ⟨"r", some 5, true, 1⟩],
          [], [0, 1], 2⟩, [], [0, 1], 1⟩ : NavResult Nat).state.nextItem + 1) := by
  constructor
  · have H := cache_reuse_iff_equal_data
      [⟨"a", false, 1⟩, ⟨"r", true, 1⟩]
      ⟨"a", none⟩ ("r") (some 5) (some 5)
      ⟨"a", false, 1⟩ ⟨"r", true, 1⟩
      ⟨⟨[⟨"a", false, 1⟩, ⟨"r", true, 1⟩],
          [⟨"a", none, false, 0⟩, ⟨"r", some 5, true, 1⟩],
          [], [0, 1], 2⟩, [], [0, 1], 1⟩
      ⟨⟨[⟨"a", false, 1⟩, ⟨"r", true, 1⟩],
          [⟨"a", none, false, 0⟩],
          [(("r", some 5), 1)], [0], 2⟩, [1], [], 1⟩
      rfl rfl rfl rfl rfl
    exact H.2.2.2.1 rfl _ rfl
  · have H := cache_reuse_iff_equal_data
      [⟨"a", false, 1⟩, ⟨"r", true, 1⟩]
      ⟨"a", none⟩ ("r") (some 5) (some 6)
      ⟨"a", false, 1⟩ ⟨"r", true, 1⟩
      ⟨⟨[⟨"a", false, 1⟩, ⟨"r", true, 1⟩],
          [⟨"a", none, false, 0⟩, ⟨"r", some 5, true, 1⟩],
          [], [0, 1], 2⟩, [], [0, 1], 1⟩
      ⟨⟨[⟨"a", false, 1⟩, ⟨"r", true, 1⟩],
          [⟨"a", none, false, 0⟩],
          [(("r", some 5), 1)], [0], 2⟩, [1], [], 1⟩
      rfl rfl rfl rfl rfl
    exact H.2.2.2.2 (by decide) _ rfl
